import Mathlib

/-!
Shallow embedding of `pyro/contrib/easyguide/easyguide.py`.

The file translates the code of `EasyGuide` and `Group` into executable Lean
definitions:

* Tensors are modelled as a shape (`List Nat`) together with a total lookup
  function from multi-indices to integer entries, plus a `requires_grad` flag;
  this is enough to express `detach`, `size(dim)` and `index_select`, the only
  tensor operations the source performs on values.
* The ambient substrate (`pyro.plate` objects, the global parameter store,
  the effect stack `runtime._PYRO_STACK`) is modelled by explicit state:
  plate objects carry an allocation id so that Python object identity is
  expressible; the parameter store is an association list; the effect stack
  is the list of ids of currently active plates.
* Regular-expression matching (`re.match`) is modelled by a small regex AST
  with a Brzozowski-derivative matcher; `re.match` anchors at the start of
  the string but does not require a full match, which is exactly what
  `matchesFrom` computes.  Group caching, keyed in Python by the pattern
  string, is keyed here by the pattern AST (syntactic equality).
* Fallible code (`raise NotImplementedError`, `raise ValueError`, Python
  `assert`, `KeyError`) is returned as `Except String`.
-/

namespace Easyguide

/-! ### Tensors -/

/-- A tensor: a shape together with a total valuation of multi-indices and a
gradient flag.  Only the operations the source uses are modelled. -/
structure Tensor where
  shape : List Nat
  val : List Nat → Int
  requires_grad : Bool

/-- `torch.Tensor.detach()`: same values, no gradient history. -/
def Tensor.detach (t : Tensor) : Tensor :=
  { t with requires_grad := false }

/-- Resolve a (possibly negative) Python/torch dimension index against a rank. -/
def resolveDim (ndim : Nat) (d : Int) : Nat :=
  if d < 0 then ((ndim : Int) + d).toNat else d.toNat

/-- `torch.Tensor.size(dim)` with a possibly negative `dim`. -/
def Tensor.sizeAt (t : Tensor) (d : Int) : Nat :=
  t.shape.getD (resolveDim t.shape.length d) 0

/-- `torch.Tensor.index_select(dim, ind)`: along dimension `d` the output at
index `i` reads the input at index `ind[i]`. -/
def Tensor.index_select (t : Tensor) (d : Int) (ind : List Nat) : Tensor :=
  let r := resolveDim t.shape.length d
  { shape := t.shape.set r ind.length
    val := fun ix => t.val (ix.set r (ind.getD (ix.getD r 0) 0))
    requires_grad := t.requires_grad }

/-- `torch.arange(n) % k`, the re-indexing vector built by `map_estimate`. -/
def arangeMod (n k : Nat) : List Nat :=
  (List.range n).map (fun i => i % k)

/-- `torch.Size(s).numel()`: the product of the dimensions. -/
def listNumel (s : List Nat) : Nat := s.prod

/-! ### Regular expressions (`re.match`) -/

/-- Regex abstract syntax (the fragment needed for site-name patterns). -/
inductive Regex where
  | emptyLang : Regex
  | eps : Regex
  | char : Char → Regex
  | dot : Regex
  | alt : Regex → Regex → Regex
  | cat : Regex → Regex → Regex
  | star : Regex → Regex
deriving DecidableEq

/-- Whether a regex accepts the empty string. -/
def Regex.nullable : Regex → Bool
  | .emptyLang => false
  | .eps => true
  | .char _ => false
  | .dot => false
  | .alt r1 r2 => r1.nullable || r2.nullable
  | .cat r1 r2 => r1.nullable && r2.nullable
  | .star _ => true

/-- Brzozowski derivative of a regex by one character. -/
def Regex.deriv : Regex → Char → Regex
  | .emptyLang, _ => .emptyLang
  | .eps, _ => .emptyLang
  | .char c, a => if a = c then .eps else .emptyLang
  | .dot, _ => .eps
  | .alt r1 r2, a => .alt (r1.deriv a) (r2.deriv a)
  | .cat r1 r2, a =>
    if r1.nullable then .alt (.cat (r1.deriv a) r2) (r2.deriv a)
    else .cat (r1.deriv a) r2
  | .star r, a => .cat (r.deriv a) (.star r)

/-- Whole-string (anchored at both ends) matching, i.e. `re.fullmatch`. -/
def Regex.fullmatch (r : Regex) (s : List Char) : Bool :=
  (s.foldl Regex.deriv r).nullable

/-- `re.match` semantics: does `r` match at the beginning of `s`, i.e. match
some (possibly empty, possibly proper) leading segment of `s`? -/
def Regex.matchesFrom : Regex → List Char → Bool
  | r, [] => r.nullable
  | r, c :: cs => r.nullable || (r.deriv c).matchesFrom cs

/-- `re.match(pattern, name)` coerced to the boolean Python uses in the
filtering comprehension of `EasyGuide.group`. -/
def reMatch (r : Regex) (s : String) : Bool :=
  r.matchesFrom s.data

/-! ### Sites, frames and distributions -/

/-- `CondIndepStackFrame`: a plate frame recorded in a site's
`cond_indep_stack`. -/
structure CondIndepStackFrame where
  name : String
  dim : Int
  size : Nat
  vectorized : Bool
deriving DecidableEq

/-- The face of a distribution object that the source reads. -/
structure Distribution where
  batch_shape : List Nat
  event_shape : List Nat
deriving DecidableEq

/-- `Distribution.event_dim`: the length of `event_shape`. -/
def Distribution.event_dim (d : Distribution) : Nat :=
  d.event_shape.length

/-- One stochastic site of the pruned prototype trace: its name, its
distribution `fn`, its recorded value, and its plate stack. -/
structure SiteRec where
  name : String
  fn : Distribution
  value : Tensor
  cond_indep_stack : List CondIndepStackFrame

/-! ### Plate objects and registries -/

/-- A `pyro.plate` object as constructed by `EasyGuide.plate`.  The `id`
field models Python object identity (each constructor call allocates a fresh
one); `size`, `subsample_size` and `dim` are the constructor arguments, which
default to `None`. -/
structure PlateObj where
  id : Nat
  name : String
  size : Option Nat
  subsample_size : Option Nat
  dim : Option Int
deriving DecidableEq

/-- First-match association-list lookup: Python `dict` access where insertion
is modelled by consing (a later insert for the same key shadows). -/
def lookupKey {α β : Type} [DecidableEq α] : List (α × β) → α → Option β
  | [], _ => none
  | (k, v) :: rest, key => if key = k then some v else lookupKey rest key

/-! ### Group -/

/-- The unpacking record for one member site produced by `Group.sample`:
the site name, the start `pos` and length `size` of its slice of the packed
trailing dimension, and the shape the slice is reshaped to. -/
structure Unpacked where
  name : String
  pos : Nat
  size : Nat
  shape : List Nat
deriving DecidableEq

/-- A `Group` object: member sites in catalog order, the shared frames, and
the declared flattened `event_shape` (a one-element `torch.Size`, stored here
as its single entry).  `id` models Python object identity. -/
structure Group where
  id : Nat
  sites : List SiteRec
  frames : List CondIndepStackFrame
  event_shape : Nat

/-- `frozenset.intersection(*(frozenset(f for f in site["cond_indep_stack"]
if f.vectorized) for site in sites))`: the vectorized frames common to all
member sites. -/
def Group.framesOf (sites : List SiteRec) : List CondIndepStackFrame :=
  match sites with
  | [] => []
  | s0 :: rest =>
    (s0.cond_indep_stack.filter (fun f => f.vectorized)).filter
      (fun f => rest.all
        (fun st => (st.cond_indep_stack.filter (fun fr => fr.vectorized)).contains f))

/-- `site_batch_shape[f.dim] = 1`: collapse one (negatively indexed) batch
dimension to size 1. -/
def setFrameDimOne (bs : List Nat) (d : Int) : List Nat :=
  bs.set (resolveDim bs.length d) 1

/-- The `event_shape` accumulation loop of `Group.__init__`: the sum over
sites of event-element-count times batch-element-count after collapsing every
shared frame's dimension to size 1. -/
def Group.eventSizeOf (sites : List SiteRec) (frames : List CondIndepStackFrame) : Nat :=
  sites.foldl
    (fun acc site =>
      acc + listNumel site.fn.event_shape *
        listNumel (frames.foldl (fun bs f => setFrameDimOne bs f.dim) site.fn.batch_shape))
    0

/-- `Group.__init__` (given a fresh identity and the already-filtered site
list). -/
def Group.init (id : Nat) (sites : List SiteRec) : Group :=
  { id := id
    sites := sites
    frames := Group.framesOf sites
    event_shape := Group.eventSizeOf sites (Group.framesOf sites) }

/-- The unpacking loop of `Group.sample`, carrying the running offset `pos`:
for each site in catalog order, slice `guide_z[..., pos : pos + size]` with
`size = torch.Size(fn.event_shape).numel()` and reshape the slice to
`batch_shape + fn.event_shape`, where `batch_shape = guide_z.shape[:-1]` is
passed in by `Group.sample`.  The support bijection and the Delta replay
preserve this shape, so the record keeps the slice bounds and the reshaped
shape. -/
def Group.sampleUnpackGo (batch_shape : List Nat) :
    List SiteRec → Nat → List Unpacked × Nat
  | [], pos => ([], pos)
  | site :: rest, pos =>
    let size := listNumel site.fn.event_shape
    let u : Unpacked :=
      { name := site.name, pos := pos, size := size
        shape := batch_shape ++ site.fn.event_shape }
    let rest_result := Group.sampleUnpackGo batch_shape rest (pos + size)
    (u :: rest_result.1, rest_result.2)

/-- `Group.sample`, shape-level: given the shape of the packed sample
`guide_z`, compute `batch_shape = guide_z.shape[:-1]` and run the unpacking
loop from `pos = 0`.  Returns the per-site unpacking records and the final
`pos`, i.e. the total span of the packed trailing dimension consumed. -/
def Group.sample (g : Group) (guide_z_shape : List Nat) : List Unpacked × Nat :=
  Group.sampleUnpackGo guide_z_shape.dropLast g.sites 0

/-! ### EasyGuide -/

/-- The mutable attributes of an `EasyGuide` instance (the model callable
itself is supplied externally as a prototype trace).  `next_id` is the
allocation counter backing object identity for plates and groups. -/
structure EasyGuide where
  prototype_trace : Option (List SiteRec)
  frames : List (String × CondIndepStackFrame)
  groups : List (Regex × Group)
  plates : List (String × PlateObj)
  next_id : Nat

/-- A freshly constructed `EasyGuide` (`__init__`). -/
def EasyGuide.new : EasyGuide :=
  { prototype_trace := none, frames := [], groups := [], plates := [], next_id := 0 }

/-- The inner loop of `_setup_prototype` over one site's `cond_indep_stack`:
register each frame under its name, failing on the first non-vectorized
frame.  The partially updated registry is kept on failure, as Python keeps
partially mutated `self.frames`. -/
def registerSiteFrames :
    List CondIndepStackFrame → List (String × CondIndepStackFrame) →
    List (String × CondIndepStackFrame) × Except String Unit
  | [], fs => (fs, Except.ok ())
  | f :: rest, fs =>
    if f.vectorized then registerSiteFrames rest ((f.name, f) :: fs)
    else (fs, Except.error "EasyGuide does not support sequential pyro.plate")

/-- The outer loop of `_setup_prototype` over the stochastic sites of the
prototype trace. -/
def registerFrames :
    List SiteRec → List (String × CondIndepStackFrame) →
    List (String × CondIndepStackFrame) × Except String Unit
  | [], fs => (fs, Except.ok ())
  | site :: rest, fs =>
    match registerSiteFrames site.cond_indep_stack fs with
    | (fs', Except.ok _) => registerFrames rest fs'
    | (fs', Except.error e) => (fs', Except.error e)

/-- `EasyGuide._setup_prototype`: the traced, pruned model run is supplied as
`trace`.  `self.prototype_trace` is assigned before the frame scan, so it
stays assigned even when the scan raises. -/
def EasyGuide.setup_prototype (g : EasyGuide) (trace : List SiteRec) :
    EasyGuide × Except String Unit :=
  let g := { g with prototype_trace := some trace }
  let scan := registerFrames trace g.frames
  ({ g with frames := scan.1 }, scan.2)

/-- `EasyGuide.__call__`: build the catalog on first invocation, run the
user guide body, then clear `self.plates`.  An exception during setup
propagates and skips the clearing (and the body). -/
def EasyGuide.call {α : Type} (g : EasyGuide) (trace : List SiteRec)
    (body : EasyGuide → EasyGuide × α) : EasyGuide × Except String α :=
  match g.prototype_trace with
  | none =>
    let setup := g.setup_prototype trace
    match setup.2 with
    | Except.error e => (setup.1, Except.error e)
    | Except.ok _ =>
      ({ (body setup.1).1 with plates := [] }, Except.ok (body setup.1).2)
  | some _ =>
    ({ (body g).1 with plates := [] }, Except.ok (body g).2)

/-- `EasyGuide.plate`: return the cached plate for `name` if present,
otherwise construct `pyro.plate(name, size, subsample_size, ...)` (a fresh
object) and cache it. -/
def EasyGuide.plate (g : EasyGuide) (name : String)
    (size subsample_size : Option Nat) (dim : Option Int) :
    EasyGuide × PlateObj :=
  match lookupKey g.plates name with
  | some p => (g, p)
  | none =>
    let p : PlateObj :=
      { id := g.next_id, name := name, size := size
        subsample_size := subsample_size, dim := dim }
    ({ g with plates := (name, p) :: g.plates, next_id := g.next_id + 1 }, p)

/-- The filtering comprehension of `EasyGuide.group`: the catalog sites whose
names `re.match` the pattern. -/
def matchedSites (pat : Regex) (trace : List SiteRec) : List SiteRec :=
  trace.filter (fun site => reMatch pat site.name)

/-- `EasyGuide.group`: return the cached group for this pattern if present;
otherwise filter the catalog, raise `ValueError` if nothing matched (leaving
the cache untouched), and otherwise construct and cache a fresh `Group`. -/
def EasyGuide.group (g : EasyGuide) (pat : Regex) : EasyGuide × Except String Group :=
  match lookupKey g.groups pat with
  | some gr => (g, Except.ok gr)
  | none =>
    match g.prototype_trace with
    | none => (g, Except.error "AttributeError")
    | some trace =>
      let sites := matchedSites pat trace
      if sites.isEmpty then
        (g, Except.error "EasyGuide.group() pattern matched no model sites")
      else
        let gr := Group.init g.next_id sites
        ({ g with groups := (pat, gr) :: g.groups, next_id := g.next_id + 1 },
         Except.ok gr)

/-- The global parameter store. -/
def ParamStore : Type := List (String × Tensor)

/-- `pyro.param(name, init_value, ...)`: return the stored tensor if the name
exists, otherwise store and return `init_value` (an absent initial value for
a fresh name is an error in the substrate). -/
def pyro_param (store : ParamStore) (name : String) (init : Option Tensor) :
    ParamStore × Except String Tensor :=
  match lookupKey store name with
  | some v => (store, Except.ok v)
  | none =>
    match init with
    | some iv => ((name, iv) :: store, Except.ok iv)
    | none => (store, Except.error "MissingInitError")

/-- The per-frame treatment of `init_value` inside the `ExitStack` loop of
`EasyGuide.map_estimate`, for a plate `p` that is already on
`runtime._PYRO_STACK`: with no initial value nothing happens; otherwise, when
`plate.subsample_size < plate.size`, the initial value is re-indexed along
`dim = plate.dim - fn.event_dim` by `torch.arange(plate.size) %
plate.subsample_size` (the Python `assert init_value.size(dim) ==
plate.subsample_size` and the `None` comparisons surface as errors). -/
def map_estimate_adjust (fn : Distribution) (p : PlateObj) (init : Option Tensor) :
    Except String (Option Tensor) :=
  match init with
  | none => Except.ok none
  | some v =>
    match p.subsample_size, p.size with
    | some ss, some sz =>
      if ss < sz then
        match p.dim with
        | some pd =>
          let dim : Int := pd - (fn.event_dim : Int)
          if v.sizeAt dim = ss then
            Except.ok (some (v.index_select dim (arangeMod sz ss)))
          else Except.error "AssertionError"
        | none => Except.error "TypeError"
      else Except.ok (some v)
    | _, _ => Except.error "TypeError"

/-- The `ExitStack` loop of `EasyGuide.map_estimate` over the site's frames.
`act` is the set of ids of plates currently on `runtime._PYRO_STACK`.  For
each frame: fetch `self.plate(frame.name)`; if it is not active, enter it;
otherwise apply `map_estimate_adjust`. -/
def map_estimate_frames (fn : Distribution) :
    List CondIndepStackFrame → EasyGuide → List Nat → Option Tensor →
    EasyGuide × List Nat × Option Tensor × Except String Unit
  | [], g, act, init => (g, act, init, Except.ok ())
  | frame :: rest, g, act, init =>
    let gp := g.plate frame.name none none none
    if gp.2.id ∈ act then
      match map_estimate_adjust fn gp.2 init with
      | Except.ok init' => map_estimate_frames fn rest gp.1 act init'
      | Except.error e => (gp.1, act, init, Except.error e)
    else
      map_estimate_frames fn rest gp.1 (gp.2.id :: act) init

/-- `EasyGuide.map_estimate(name)`: look the site up in the catalog, choose
the seed (`site["value"].detach()` only when `"auto_" + name` is absent from
the parameter store), run the frame loop, then `pyro.param` and the Delta
sample (which returns the parameter value).  The `ExitStack` exits any
entered plates on return, so the active set is not part of the result. -/
def EasyGuide.map_estimate (g : EasyGuide) (store : ParamStore) (act : List Nat)
    (name : String) : EasyGuide × ParamStore × Except String Tensor :=
  match g.prototype_trace with
  | none => (g, store, Except.error "AttributeError")
  | some trace =>
    match trace.find? (fun st => st.name = name) with
    | none => (g, store, Except.error "KeyError")
    | some site =>
      let fn := site.fn
      let param_name := "auto_" ++ name
      let init_value : Option Tensor :=
        if (lookupKey store param_name).isSome then none
        else some site.value.detach
      let res := map_estimate_frames fn site.cond_indep_stack g act init_value
      match res.2.2.2 with
      | Except.error e => (res.1, store, Except.error e)
      | Except.ok _ =>
        let pr := pyro_param store param_name res.2.2.1
        match pr.2 with
        | Except.ok value => (res.1, pr.1, Except.ok value)
        | Except.error e => (res.1, pr.1, Except.error e)


/-! ### Helper lemmas -/

theorem lookupKey_cons_self {α β : Type} [DecidableEq α] (k : α) (v : β)
    (l : List (α × β)) : lookupKey ((k, v) :: l) k = some v := by
  simp [lookupKey]

theorem lookupKey_cons_ne {α β : Type} [DecidableEq α] {k k' : α} (v : β)
    (l : List (α × β)) (h : k' ≠ k) :
    lookupKey ((k, v) :: l) k' = lookupKey l k' := by
  simp [lookupKey, h]

/-- `re.match` matches a regex against some leading segment of the string:
the derivative-based scanner succeeds exactly when some (possibly empty)
leading segment matches in full. -/
theorem matchesFrom_iff_leading_segment (r : Regex) (s : List Char) :
    r.matchesFrom s = true ↔
      ∃ p q : List Char, s = p ++ q ∧ r.fullmatch p = true := by
  induction s generalizing r with
  | nil =>
    constructor
    · intro h
      exact ⟨[], [], rfl, h⟩
    · rintro ⟨p, q, hpq, hp⟩
      rcases List.append_eq_nil.mp hpq.symm with ⟨hp0, -⟩
      subst hp0
      exact hp
  | cons c cs ih =>
    simp only [Regex.matchesFrom, Bool.or_eq_true]
    constructor
    · intro h
      rcases h with h0 | h1
      · exact ⟨[], c :: cs, rfl, h0⟩
      · rcases (ih (r.deriv c)).mp h1 with ⟨p, q, hpq, hp⟩
        exact ⟨c :: p, q, by rw [hpq]; rfl, hp⟩
    · rintro ⟨p, q, hpq, hp⟩
      rcases p with _ | ⟨c', p'⟩
      · rcases hpq with rfl
        exact Or.inl hp
      · rw [List.cons_append] at hpq
        injection hpq with hc hcs
        subst hc
        exact Or.inr ((ih (r.deriv c)).mpr ⟨p', q, hcs, hp⟩)

/-- Every unpacked record of the `Group.sample` loop carries the reshape
target `batch_shape ++ event_shape`, site by site in catalog order. -/
theorem sampleUnpackGo_map_shape (bs : List Nat) (sites : List SiteRec) (pos : Nat) :
    ((Group.sampleUnpackGo bs sites pos).1).map Unpacked.shape
      = sites.map (fun site => bs ++ site.fn.event_shape) := by
  induction sites generalizing pos with
  | nil => rfl
  | cons s rest ih => simp [Group.sampleUnpackGo, ih]

/-! ### Concrete fixtures -/

/-- A catalog value for the fixture site (never compared element-wise). -/
def tensorX : Tensor :=
  { shape := [2], val := fun _ => 0, requires_grad := true }

/-- A fixture site: batch shape `(2,)`, empty event shape, no plate frames. -/
def siteX : SiteRec :=
  { name := "x"
    fn := { batch_shape := [2], event_shape := [] }
    value := tensorX
    cond_indep_stack := [] }

/-- The group built from `siteX` alone. -/
def groupX : Group := Group.init 0 [siteX]

/-- A fixture site named `ab`, used for the match-anchoring example. -/
def siteAB : SiteRec :=
  { name := "ab"
    fn := { batch_shape := [], event_shape := [] }
    value := tensorX
    cond_indep_stack := [] }

/-! ### Claim theorems -/

/-- C10: site selection in `EasyGuide.group` is prefix-anchored: a catalog
site is selected iff the pattern matches some leading segment of the site's
name (a full-name match is not required); in particular the pattern `a`
selects a site named `ab`, whose name the pattern does not match in full. -/
theorem group_match_prefix_anchored :
    (∀ (pat : Regex) (trace : List SiteRec) (site : SiteRec),
        site ∈ matchedSites pat trace ↔
          site ∈ trace ∧
            ∃ p q : List Char, site.name.data = p ++ q ∧ pat.fullmatch p = true) ∧
    matchedSites (Regex.char 'a') [siteAB] = [siteAB] ∧
    reMatch (Regex.char 'a') "ab" = true ∧
    Regex.fullmatch (Regex.char 'a') "ab".data = false := by
  refine ⟨?_, rfl, by decide, by decide⟩
  intro pat trace site
  simp only [matchedSites, List.mem_filter, reMatch]
  exact and_congr_right (fun _ => matchesFrom_iff_leading_segment pat site.name.data)

/-- C1 (counterexample): for the group over `siteX` (catalog batch shape
`(2,)`, event shape `()`) and a packed sample of shape `(2,)`, the unpacked
value has shape `()`, not the catalog-time `batch_shape + event_shape`
`(2,)`: the reshape uses the call-time `guide_z.shape[:-1]`, which is empty
here. -/
theorem group_sample_call_time_batch_counterexample :
    (groupX.sample [2]).1.map Unpacked.shape = [([] : List Nat)] ∧
    siteX.fn.batch_shape ++ siteX.fn.event_shape = [2] ∧
    ([] : List Nat) ≠ [2] := by
  exact ⟨by decide, by decide, by decide⟩

/-- C1 (amended): for every group and every packed sample, the unpacked
value returned for each member site has shape equal to the packed sample's
batch shape (`guide_z.shape[:-1]`, observed at call time) concatenated with
that site's event shape as recorded at catalog time. -/
theorem group_sample_unpacked_shapes (i : Nat) (sites : List SiteRec)
    (gz : List Nat) :
    ((Group.init i sites).sample gz).1.map Unpacked.shape
      = sites.map (fun site => gz.dropLast ++ site.fn.event_shape) :=
  sampleUnpackGo_map_shape gz.dropLast sites 0

/-- C2: for the group over `siteX`, `Group.__init__` declares
`event_shape = 2` (event element count times batch element count after
collapsing shared frames), but the unpacking loop of `Group.sample` consumes
only `1` element of the packed trailing dimension (event element count
alone): the two quantities the claim equates differ. -/
theorem group_event_shape_vs_sample_span :
    groupX.event_shape = 2 ∧ (groupX.sample [2]).2 = 1 ∧ (2 : Nat) ≠ 1 := by
  exact ⟨by decide, by decide, by decide⟩

/-- C8: calling `plate(name, ...)` twice with the same name returns the very
same cached plate object and leaves the state unchanged, even when the
size/subsample_size/dim arguments differ on the second call: the later-call
parameters are ignored on a cache hit. -/
theorem plate_memoization (g : EasyGuide) (name : String)
    (sz1 ss1 : Option Nat) (d1 : Option Int)
    (sz2 ss2 : Option Nat) (d2 : Option Int) :
    EasyGuide.plate (g.plate name sz1 ss1 d1).1 name sz2 ss2 d2
      = g.plate name sz1 ss1 d1 := by
  rcases h : lookupKey g.plates name with _ | p
  · simp [EasyGuide.plate, h, lookupKey]
  · simp [EasyGuide.plate, h]

/-! ### Setup error lemmas -/

theorem registerSiteFrames_ok (frames : List CondIndepStackFrame)
    (fs : List (String × CondIndepStackFrame))
    (hall : ∀ f ∈ frames, f.vectorized = true) :
    ∃ fs', registerSiteFrames frames fs = (fs', Except.ok ()) := by
  induction frames generalizing fs with
  | nil => exact ⟨fs, rfl⟩
  | cons f rest ih =>
    have hf := hall f (List.mem_cons_self f rest)
    simp only [registerSiteFrames, hf, if_true]
    exact ih _ (fun f' hf' => hall f' (List.mem_cons_of_mem f hf'))

theorem registerSiteFrames_error (frames : List CondIndepStackFrame)
    (fs : List (String × CondIndepStackFrame))
    (hbad : ∃ f ∈ frames, f.vectorized = false) :
    (registerSiteFrames frames fs).2
      = Except.error "EasyGuide does not support sequential pyro.plate" := by
  induction frames generalizing fs with
  | nil => simp at hbad
  | cons f rest ih =>
    cases hf : f.vectorized with
    | false => simp [registerSiteFrames, hf]
    | true =>
      simp only [registerSiteFrames, hf, if_true]
      rcases hbad with ⟨f', hf', hv⟩
      rcases List.mem_cons.mp hf' with rfl | hmem
      · rw [hf] at hv; cases hv
      · exact ih _ ⟨f', hmem, hv⟩

theorem registerFrames_error (sites : List SiteRec)
    (fs : List (String × CondIndepStackFrame))
    (hbad : ∃ site ∈ sites, ∃ f ∈ site.cond_indep_stack, f.vectorized = false) :
    (registerFrames sites fs).2
      = Except.error "EasyGuide does not support sequential pyro.plate" := by
  induction sites generalizing fs with
  | nil => simp at hbad
  | cons site rest ih =>
    by_cases hsite : ∃ f ∈ site.cond_indep_stack, f.vectorized = false
    · have herr := registerSiteFrames_error site.cond_indep_stack fs hsite
      rcases hs : registerSiteFrames site.cond_indep_stack fs with ⟨fs', r⟩
      rw [hs] at herr
      simp only at herr
      rw [registerFrames, hs, herr]
    · push_neg at hsite
      have hall : ∀ f ∈ site.cond_indep_stack, f.vectorized = true := by
        intro f hf
        have := hsite f hf
        cases hv : f.vectorized with
        | false => exact absurd hv this
        | true => rfl
      obtain ⟨fs', hok⟩ := registerSiteFrames_ok site.cond_indep_stack fs hall
      rcases hbad with ⟨site', hmem, hbad'⟩
      rcases List.mem_cons.mp hmem with rfl | hmem'
      · exact absurd hbad' (by push_neg; intro f hf; simp [hall f hf])
      · rw [registerFrames, hok]
        exact ih _ ⟨site', hmem', hbad'⟩

/-! ### More fixtures -/

/-- The guide body used in the plate-registry scenarios: request the plate
named `p` with size 7 and subsample size 3 at dimension -1. -/
def bodyPlate (g : EasyGuide) : EasyGuide × PlateObj :=
  g.plate "p" (some 7) (some 3) (some (-1))

/-- The plate object allocated by the first invocation (allocation id 0). -/
def plateA : PlateObj :=
  { id := 0, name := "p", size := some 7, subsample_size := some 3, dim := some (-1) }

/-- The plate object allocated by the second invocation (allocation id 1). -/
def plateB : PlateObj :=
  { id := 1, name := "p", size := some 7, subsample_size := some 3, dim := some (-1) }

/-- The guide state after one full invocation with body `bodyPlate`. -/
def gAfterCall : EasyGuide :=
  (EasyGuide.call EasyGuide.new [siteX] bodyPlate).1

/-- A sequential (non-vectorized) plate frame. -/
def frameSeq : CondIndepStackFrame :=
  { name := "s", dim := -1, size := 4, vectorized := false }

/-- A site whose plate stack contains the sequential frame `frameSeq`. -/
def siteSeq : SiteRec :=
  { name := "y"
    fn := { batch_shape := [], event_shape := [] }
    value := tensorX
    cond_indep_stack := [frameSeq] }

/-- An initialized guide whose catalog holds only `siteX`. -/
def gCatX : EasyGuide :=
  { EasyGuide.new with prototype_trace := some [siteX] }

/-- An initialized guide whose catalog holds only `siteAB`. -/
def gCatAB : EasyGuide :=
  { EasyGuide.new with prototype_trace := some [siteAB] }

/-- The pattern `a`. -/
def patA : Regex := Regex.char 'a'

/-- The pattern `a|a`: a distinct pattern selecting the same sites as `a`. -/
def patAA : Regex := Regex.alt (Regex.char 'a') (Regex.char 'a')

/-! ### Claim theorems (continued) -/

/-- C3 (counterexample): two consecutive invocations of the same guide whose
body requests `plate("p", ...)` return two distinct plate objects: the first
call returns the object with allocation id 0, the second call the object with
allocation id 1, because `__call__` clears `self.plates` at the end of every
invocation. -/
theorem plate_registry_persistence_counterexample :
    (EasyGuide.call EasyGuide.new [siteX] bodyPlate).2 = Except.ok plateA ∧
    (EasyGuide.call gAfterCall [siteX] bodyPlate).2 = Except.ok plateB ∧
    plateA ≠ plateB := by
  refine ⟨rfl, rfl, by decide⟩

/-- C3 (amended): the Plate Registry does not persist across invocations:
`__call__` clears `self.plates` after the guide body runs, so every
successful invocation ends with an empty registry, and a later invocation's
`plate(name)` request on the emptied registry constructs, caches and returns
a freshly allocated context object. -/
theorem plates_cleared_after_call {α : Type} (g : EasyGuide)
    (trace : List SiteRec) (body : EasyGuide → EasyGuide × α) :
    (∀ a : α, (EasyGuide.call g trace body).2 = Except.ok a →
        (EasyGuide.call g trace body).1.plates = []) ∧
    (∀ (g2 : EasyGuide) (name : String) (sz ss : Option Nat) (d : Option Int),
        lookupKey g2.plates name = none →
          (g2.plate name sz ss d).2.id = g2.next_id ∧
          (g2.plate name sz ss d).1.next_id = g2.next_id + 1 ∧
          lookupKey (g2.plate name sz ss d).1.plates name
            = some (g2.plate name sz ss d).2) := by
  constructor
  · intro a h
    unfold EasyGuide.call at h ⊢
    rcases hp : g.prototype_trace with _ | tr
    · simp only [hp] at h ⊢
      rcases hs : (g.setup_prototype trace).2 with e | u
      · simp [hs] at h
      · simp only [hs]
    · simp only [hp]
  · intro g2 name sz ss d hnone
    simp [EasyGuide.plate, hnone, lookupKey_cons_self]

/-- Witness for the amended C3 theorem: after one invocation the registry is
empty, and a plate request on the resulting state allocates the id held by
the allocation counter. -/
theorem plates_cleared_after_call_witness :
    gAfterCall.plates = [] ∧
    lookupKey gAfterCall.plates "q" = none ∧
    (gAfterCall.plate "q" none none none).2.id = gAfterCall.next_id := by
  have h := plates_cleared_after_call (α := PlateObj) EasyGuide.new [siteX] bodyPlate
  refine ⟨h.1 plateA rfl, rfl, ?_⟩
  exact (h.2 gAfterCall "q" none none none rfl).1

/-- C5: if any stochastic site of the prototype trace has a non-vectorized
frame on its `cond_indep_stack`, then catalog construction raises the
`NotImplementedError` message, and so does the very first invocation of the
guide (the one that triggers construction). -/
theorem setup_rejects_sequential_plate {α : Type} (g : EasyGuide)
    (trace : List SiteRec) (body : EasyGuide → EasyGuide × α)
    (hproto : g.prototype_trace = none)
    (hbad : ∃ site ∈ trace, ∃ f ∈ site.cond_indep_stack, f.vectorized = false) :
    (EasyGuide.call g trace body).2
      = Except.error "EasyGuide does not support sequential pyro.plate" ∧
    (g.setup_prototype trace).2
      = Except.error "EasyGuide does not support sequential pyro.plate" := by
  have herr : (g.setup_prototype trace).2
      = Except.error "EasyGuide does not support sequential pyro.plate" := by
    simp only [EasyGuide.setup_prototype]
    exact registerFrames_error trace g.frames hbad
  refine ⟨?_, herr⟩
  unfold EasyGuide.call
  simp only [hproto]
  simp [herr]

/-- Witness for C5: a one-site trace carrying a sequential frame makes the
first invocation fail with the sequential-plate error. -/
theorem setup_rejects_sequential_plate_witness :
    EasyGuide.new.prototype_trace = none ∧
    (∃ site ∈ [siteSeq], ∃ f ∈ site.cond_indep_stack, f.vectorized = false) ∧
    (EasyGuide.call EasyGuide.new [siteSeq] (fun g => (g, 0))).2
      = Except.error "EasyGuide does not support sequential pyro.plate" := by
  refine ⟨rfl, by decide, ?_⟩
  exact (setup_rejects_sequential_plate EasyGuide.new [siteSeq] (fun g => (g, 0))
    rfl (by decide)).1

/-- C6: a pattern that matches no catalog site makes `EasyGuide.group` raise
the no-sites-matched `ValueError` and return with the instance state — in
particular the group cache — completely unchanged. -/
theorem group_empty_match_error (g : EasyGuide) (pat : Regex)
    (trace : List SiteRec)
    (hcat : g.prototype_trace = some trace)
    (hcache : lookupKey g.groups pat = none)
    (hempty : (matchedSites pat trace).isEmpty = true) :
    g.group pat = (g, Except.error "EasyGuide.group() pattern matched no model sites") := by
  unfold EasyGuide.group
  rw [hcache, hcat]
  simp [hempty]

/-- Witness for C6: the pattern `z` matches no site of the one-site catalog
`[siteX]`, so the group request errors and leaves the state unchanged. -/
theorem group_empty_match_error_witness :
    gCatX.prototype_trace = some [siteX] ∧
    lookupKey gCatX.groups (Regex.char 'z') = none ∧
    (matchedSites (Regex.char 'z') [siteX]).isEmpty = true ∧
    gCatX.group (Regex.char 'z')
      = (gCatX, Except.error "EasyGuide.group() pattern matched no model sites") := by
  exact ⟨rfl, rfl, by decide,
    group_empty_match_error gCatX (Regex.char 'z') [siteX] rfl rfl (by decide)⟩

/-- On a cache miss with a populated catalog and a non-empty selection,
`EasyGuide.group` allocates a fresh `Group`, caches it under the pattern and
advances the allocation counter. -/
theorem group_fresh (st : EasyGuide) (p : Regex) (tr : List SiteRec)
    (hcat : st.prototype_trace = some tr)
    (hc : lookupKey st.groups p = none)
    (hne : (matchedSites p tr).isEmpty = false) :
    st.group p
      = (⟨st.prototype_trace, st.frames,
          (p, Group.init st.next_id (matchedSites p tr)) :: st.groups,
          st.plates, st.next_id + 1⟩,
         Except.ok (Group.init st.next_id (matchedSites p tr))) := by
  simp [EasyGuide.group, hc, hcat, hne]

/-- C7: a successful `group(p)` is identity-stable — requesting the same
pattern again returns the identical cached object and the same state — while
two distinct patterns are cached independently: even when they select the
same site list, requesting them one after the other yields two distinct
group objects. -/
theorem group_cache_identity (g : EasyGuide) (pat1 pat2 : Regex)
    (trace : List SiteRec)
    (hcat : g.prototype_trace = some trace)
    (hne : pat1 ≠ pat2)
    (h1 : lookupKey g.groups pat1 = none)
    (h2 : lookupKey g.groups pat2 = none)
    (hs1 : (matchedSites pat1 trace).isEmpty = false)
    (hs2 : (matchedSites pat2 trace).isEmpty = false)
    (hsame : (matchedSites pat1 trace).map SiteRec.name
        = (matchedSites pat2 trace).map SiteRec.name) :
    (∀ (st : EasyGuide) (p : Regex) (g' : EasyGuide) (gr : Group),
        st.group p = (g', Except.ok gr) → g'.group p = (g', Except.ok gr)) ∧
    (∃ gr1 gr2 : Group,
        (g.group pat1).2 = Except.ok gr1 ∧
        ((g.group pat1).1.group pat2).2 = Except.ok gr2 ∧
        gr1 ≠ gr2) := by
  constructor
  · intro st p g' gr h
    unfold EasyGuide.group at h ⊢
    rcases hl : lookupKey st.groups p with _ | gg
    · rw [hl] at h
      rcases hpt : st.prototype_trace with _ | tr
      · rw [hpt] at h
        simp at h
      · rw [hpt] at h
        cases he : (matchedSites p tr).isEmpty with
        | true => simp [he] at h
        | false =>
          simp only [he, Bool.false_eq_true, if_false, Prod.mk.injEq] at h
          obtain ⟨hg', hgr⟩ := h
          subst hg'
          injection hgr with hgr
          subst hgr
          simp [lookupKey_cons_self]
    · rw [hl] at h
      simp only [Prod.mk.injEq] at h
      obtain ⟨hg', hgr⟩ := h
      subst hg'
      injection hgr with hgr
      subst hgr
      simp [hl]
  · have e1 := group_fresh g pat1 trace hcat h1 hs1
    have hne' : pat2 ≠ pat1 := fun hx => hne hx.symm
    have hl2 : lookupKey
        ((pat1, Group.init g.next_id (matchedSites pat1 trace)) :: g.groups) pat2
        = none := by
      rw [lookupKey_cons_ne _ _ hne']
      exact h2
    have e2 := group_fresh
      (⟨g.prototype_trace, g.frames,
        (pat1, Group.init g.next_id (matchedSites pat1 trace)) :: g.groups,
        g.plates, g.next_id + 1⟩ : EasyGuide)
      pat2 trace hcat hl2 hs2
    refine ⟨Group.init g.next_id (matchedSites pat1 trace),
            Group.init (g.next_id + 1) (matchedSites pat2 trace), ?_, ?_, ?_⟩
    · rw [e1]
    · rw [e1]
      simp [e2]
    · intro hEq
      have hid := congrArg Group.id hEq
      simp only [Group.init] at hid
      omega

/-- Witness for C7: the distinct patterns `a` and `a|a` select the same site
from the catalog `[siteAB]`, yet requesting both yields two distinct group
objects, and re-requesting either returns its cached object. -/
theorem group_cache_identity_witness :
    (gCatAB.prototype_trace = some [siteAB] ∧ patA ≠ patAA ∧
      lookupKey gCatAB.groups patA = none ∧ lookupKey gCatAB.groups patAA = none ∧
      (matchedSites patA [siteAB]).isEmpty = false ∧
      (matchedSites patAA [siteAB]).isEmpty = false ∧
      (matchedSites patA [siteAB]).map SiteRec.name
        = (matchedSites patAA [siteAB]).map SiteRec.name) ∧
    (∃ gr1 gr2 : Group,
        (gCatAB.group patA).2 = Except.ok gr1 ∧
        ((gCatAB.group patA).1.group patAA).2 = Except.ok gr2 ∧
        gr1 ≠ gr2) := by
  refine ⟨⟨rfl, by decide, rfl, rfl, by decide, by decide, by decide⟩, ?_⟩
  exact (group_cache_identity gCatAB patA patAA [siteAB] rfl (by decide) rfl rfl
    (by decide) (by decide) (by decide)).2


/-! ### map_estimate fixtures -/

/-- The distribution of the C4 scenario site: batch `(7,)`, empty event. -/
def fnC4 : Distribution := { batch_shape := [7], event_shape := [] }

/-- The plate frame of the C4 scenario. -/
def frameC4 : CondIndepStackFrame :=
  { name := "p", dim := -1, size := 7, vectorized := true }

/-- The cached plate of the C4 scenario: size 7, subsample size 3, dim -1. -/
def plateC4 : PlateObj :=
  { id := 0, name := "p", size := some 7, subsample_size := some 3, dim := some (-1) }

/-- A guide whose plate registry caches `plateC4`. -/
def gC4 : EasyGuide :=
  { EasyGuide.new with plates := [("p", plateC4)], next_id := 1 }

/-- The initial value of the C4 scenario: the vector `[0, 1, 2]`. -/
def vC4 : Tensor :=
  { shape := [3], val := fun ix => (ix.getD 0 0 : Int), requires_grad := false }


/-! ### map_estimate lemmas -/

/-- When the initial value is absent, the frame loop leaves it absent and
never fails. -/
theorem map_estimate_frames_none (fn : Distribution)
    (frames : List CondIndepStackFrame) : ∀ (g : EasyGuide) (act : List Nat),
    ∃ g' act', map_estimate_frames fn frames g act none
      = (g', act', none, Except.ok ()) := by
  induction frames with
  | nil => intro g act; exact ⟨g, act, rfl⟩
  | cons frame rest ih =>
    intro g act
    by_cases hmem : (g.plate frame.name none none none).2.id ∈ act
    · simp only [map_estimate_frames, if_pos hmem]
      exact ih _ _
    · simp only [map_estimate_frames, if_neg hmem]
      exact ih _ _

/-- A successful per-frame adjustment of a present initial value yields a
present value with the same gradient flag. -/
theorem map_estimate_adjust_some (fn : Distribution) (p : PlateObj) (v : Tensor)
    (o : Option Tensor) (h : map_estimate_adjust fn p (some v) = Except.ok o) :
    ∃ w, o = some w ∧ w.requires_grad = v.requires_grad := by
  simp only [map_estimate_adjust] at h
  rcases hss : p.subsample_size with _ | ss
  · simp only [hss] at h
    cases h
  · rcases hsz : p.size with _ | sz
    · simp only [hss, hsz] at h
      cases h
    · simp only [hss, hsz] at h
      by_cases hlt : ss < sz
      · rw [if_pos hlt] at h
        rcases hpd : p.dim with _ | pd
        · simp only [hpd] at h
          cases h
        · simp only [hpd] at h
          by_cases hsizeEq : v.sizeAt (pd - (fn.event_dim : Int)) = ss
          · rw [if_pos hsizeEq] at h
            injection h with h
            exact ⟨_, h.symm, rfl⟩
          · rw [if_neg hsizeEq] at h
            cases h
      · rw [if_neg hlt] at h
        injection h with h
        exact ⟨v, h.symm, rfl⟩

/-- A successful frame loop on a present initial value ends with a present
value with the same gradient flag. -/
theorem map_estimate_frames_grad (fn : Distribution)
    (frames : List CondIndepStackFrame) :
    ∀ (g : EasyGuide) (act : List Nat) (v : Tensor) (g' : EasyGuide)
      (act' : List Nat) (o : Option Tensor),
    map_estimate_frames fn frames g act (some v) = (g', act', o, Except.ok ()) →
    ∃ w, o = some w ∧ w.requires_grad = v.requires_grad := by
  induction frames with
  | nil =>
    intro g act v g' act' o h
    simp only [map_estimate_frames, Prod.mk.injEq] at h
    obtain ⟨-, -, h3, -⟩ := h
    exact ⟨v, h3.symm, rfl⟩
  | cons frame rest ih =>
    intro g act v g' act' o h
    by_cases hmem : (g.plate frame.name none none none).2.id ∈ act
    · simp only [map_estimate_frames, if_pos hmem] at h
      rcases ha : map_estimate_adjust fn (g.plate frame.name none none none).2 (some v)
          with e | o1
      · rw [ha] at h
        simp at h
      · rw [ha] at h
        obtain ⟨w1, ho1, hw1⟩ := map_estimate_adjust_some fn _ v o1 ha
        subst ho1
        obtain ⟨w, hw, hgrad⟩ := ih _ _ _ _ _ _ h
        exact ⟨w, hw, hgrad.trans hw1⟩
    · simp only [map_estimate_frames, if_neg hmem] at h
      exact ih _ _ _ _ _ _ h

/-! ### Claim theorems: map_estimate -/

/-- C4: in the frame loop of `map_estimate`, when the site's plate is cached,
already active, has `subsample_size` strictly smaller than `size`, and an
initial value is present, the loop continues with the initial value
re-indexed along `plate.dim - fn.event_dim`: the re-indexed tensor has full
`size` length along that dimension, and its entry at index `i` along that
dimension is the original entry at index `i % subsample_size`. -/
theorem map_estimate_modular_expansion
    (fn : Distribution) (frame : CondIndepStackFrame)
    (rest : List CondIndepStackFrame) (g : EasyGuide) (act : List Nat)
    (v : Tensor) (p : PlateObj) (ss sz : Nat) (pd : Int)
    (hp : lookupKey g.plates frame.name = some p)
    (hact : p.id ∈ act)
    (hss : p.subsample_size = some ss)
    (hsz : p.size = some sz)
    (hlt : ss < sz)
    (hpd : p.dim = some pd)
    (hsize : v.sizeAt (pd - (fn.event_dim : Int)) = ss) :
    map_estimate_frames fn (frame :: rest) g act (some v)
      = map_estimate_frames fn rest g act
          (some (v.index_select (pd - (fn.event_dim : Int)) (arangeMod sz ss))) ∧
    (v.index_select (pd - (fn.event_dim : Int)) (arangeMod sz ss)).shape
      = v.shape.set (resolveDim v.shape.length (pd - (fn.event_dim : Int))) sz ∧
    (∀ ix : List Nat,
        ix.getD (resolveDim v.shape.length (pd - (fn.event_dim : Int))) 0 < sz →
        (v.index_select (pd - (fn.event_dim : Int)) (arangeMod sz ss)).val ix
          = v.val (ix.set (resolveDim v.shape.length (pd - (fn.event_dim : Int)))
              (ix.getD (resolveDim v.shape.length (pd - (fn.event_dim : Int))) 0 % ss))) := by
  have hplate : g.plate frame.name none none none = (g, p) := by
    simp [EasyGuide.plate, hp]
  have harange : ∀ i, i < sz → (arangeMod sz ss).getD i 0 = i % ss := by
    intro i hi
    simp [arangeMod, List.getD_eq_getElem?_getD, List.getElem?_map,
      List.getElem?_range, hi]
  refine ⟨?_, ?_, ?_⟩
  · simp only [map_estimate_frames, hplate]
    rw [if_pos hact]
    simp [map_estimate_adjust, hss, hsz, hlt, hpd, hsize]
  · simp [Tensor.index_select, arangeMod]
  · intro ix hix
    simp only [Tensor.index_select]
    rw [harange _ hix]

/-- Witness for C4: with a plate of size 7 and subsample size 3, active, and
the initial value `[0, 1, 2]`, the loop's re-indexed value has shape `[7]`
and entries `[0, 1, 2, 0, 1, 2, 0]`. -/
theorem map_estimate_modular_expansion_witness :
    (vC4.index_select (-1 - (fnC4.event_dim : Int)) (arangeMod 7 3)).shape
        = vC4.shape.set (resolveDim vC4.shape.length (-1 - (fnC4.event_dim : Int))) 7 ∧
    (List.range 7).map
        (fun i => (vC4.index_select (-1 - (fnC4.event_dim : Int)) (arangeMod 7 3)).val [i])
      = [0, 1, 2, 0, 1, 2, 0] := by
  refine ⟨(map_estimate_modular_expansion fnC4 frameC4 [] gC4 [0] vC4 plateC4 3 7 (-1)
      (by decide) (by decide) (by decide) (by decide) (by decide) (by decide)
      (by decide)).2.1, ?_⟩
  decide

/-- C9: under a successful `map_estimate(name)`, the parameter store is
written only when `"auto_" + name` is absent: if the parameter exists, the
store is returned unchanged and its stored value is returned; if it is
absent, the store gains exactly one entry under `"auto_" + name`, holding a
tensor detached from gradient history — the site's recorded catalog value
itself when the site has no plate frames. -/
theorem map_estimate_param_store_seeding
    (g : EasyGuide) (store : ParamStore) (act : List Nat) (name : String)
    (g' : EasyGuide) (store' : ParamStore) (v : Tensor)
    (hrun : g.map_estimate store act name = (g', store', Except.ok v)) :
    (∀ w, lookupKey store ("auto_" ++ name) = some w → store' = store ∧ v = w) ∧
    (lookupKey store ("auto_" ++ name) = none →
      store' = ("auto_" ++ name, v) :: store ∧
      lookupKey store' ("auto_" ++ name) = some v ∧
      v.requires_grad = false ∧
      (∀ (trace : List SiteRec) (site : SiteRec),
          g.prototype_trace = some trace →
          trace.find? (fun st => st.name = name) = some site →
          site.cond_indep_stack = [] → v = site.value.detach)) := by
  unfold EasyGuide.map_estimate at hrun
  rcases hp : g.prototype_trace with _ | trace
  · simp only [hp] at hrun
    simp at hrun
  simp only [hp] at hrun
  rcases hfind : trace.find? (fun st => st.name = name) with _ | site
  · simp only [hfind] at hrun
    simp at hrun
  simp only [hfind] at hrun
  rcases hw : lookupKey store ("auto_" ++ name) with _ | w0
  · -- parameter absent: the seed is written
    simp [hw] at hrun
    rcases hres : map_estimate_frames site.fn site.cond_indep_stack g act
        (some site.value.detach) with ⟨g1, act1, o1, r1⟩
    rw [hres] at hrun
    cases r1 with
    | error e => simp at hrun
    | ok u =>
      cases u
      obtain ⟨w1, ho1, hgrad⟩ :=
        map_estimate_frames_grad site.fn site.cond_indep_stack g act
          site.value.detach g1 act1 o1 hres
      subst ho1
      simp only [pyro_param, hw, Prod.mk.injEq, Except.ok.injEq] at hrun
      obtain ⟨-, hst, hv⟩ := hrun
      subst hv
      constructor
      · intro w hw'
        cases hw'
      · intro _
        refine ⟨hst.symm, ?_, hgrad.trans rfl, ?_⟩
        · rw [← hst]
          exact lookupKey_cons_self _ _ _
        · intro trace' site' hptr hfind' hstack
          injection hptr with hptr
          subst hptr
          rw [hfind] at hfind'
          injection hfind' with hfind'
          subst hfind'
          rw [hstack] at hres
          simp only [map_estimate_frames, Prod.mk.injEq, Option.some.injEq] at hres
          obtain ⟨-, -, h3, -⟩ := hres
          exact h3.symm
  · -- parameter present: the store is untouched and the stored value returned
    simp [hw] at hrun
    obtain ⟨g1, act1, hres⟩ :=
      map_estimate_frames_none site.fn site.cond_indep_stack g act
    rw [hres] at hrun
    simp only [pyro_param, hw, Prod.mk.injEq, Except.ok.injEq] at hrun
    obtain ⟨-, hst, hv⟩ := hrun
    subst hv
    constructor
    · intro w hw'
      injection hw' with hw'
      subst hw'
      exact ⟨hst.symm, rfl⟩
    · intro hnone
      cases hnone

/-- Witness for C9: on an empty parameter store, `map_estimate("x")` for the
frameless catalog site `siteX` succeeds, writes exactly the detached catalog
value under `auto_x`, and returns it. -/
theorem map_estimate_param_store_seeding_witness :
    gCatX.map_estimate [] [] "x"
      = (gCatX, [("auto_" ++ "x", tensorX.detach)], Except.ok tensorX.detach) ∧
    lookupKey ([] : ParamStore) ("auto_" ++ "x") = none ∧
    lookupKey [("auto_" ++ "x", tensorX.detach)] ("auto_" ++ "x")
      = some tensorX.detach ∧
    Tensor.requires_grad tensorX.detach = false := by
  have hrun : gCatX.map_estimate [] [] "x"
      = (gCatX, [("auto_" ++ "x", tensorX.detach)], Except.ok tensorX.detach) := rfl
  have h := map_estimate_param_store_seeding gCatX [] [] "x" gCatX
      [("auto_" ++ "x", tensorX.detach)] tensorX.detach hrun
  have h2 := h.2 rfl
  exact ⟨hrun, rfl, h2.2.1, h2.2.2.1⟩

end Easyguide
